import Mathlib

/-!
Verification development for the AnjaniDeepaEnterprises job-board server
(`src/server.js`). The server is a single Express application over two
flat JSON files (jobs, applications), an uploads directory, an append-only
mail log, and an outbound EmailJS HTTP API.

Shallow embedding conventions:
  * The state a request handler can touch is a `St` record: the decoded
    job store, the decoded application store, the set of files on disk
    (as a list of path strings), the mail log, the console output, and the
    list of sends dispatched to the EmailJS API (its length is the number
    of network calls made).
  * `Date.now()` is a `Nat` parameter `now`; ISO timestamp strings derived
    from it are modelled as `toString now` (their exact text is irrelevant
    to every property below). Log-entry timestamps are omitted.
  * Environment variables are strings with `""` standing for an unset or
    empty variable; both are falsy in the JavaScript truthiness tests the
    code performs, so the model loses nothing.
  * The outbound `fetch` is modelled by a `FetchOutcome` oracle passed to
    the handler: the response was ok, an HTTP error, or a network error.
  * The multer upload middleware (external library) is modelled by
    `runMulter`: it rejects by `fileFilter` before writing anything, saves
    an accepted file under `<now>-<originalname with whitespace runs
    collapsed to underscores>`, and on a file exceeding the size limit it
    reports `File too large` having removed the partial file, so no file
    remains and `req.file` is unset.
  * `console.log`/`console.error` calls are modelled only in the mailing
    sections (the only place a property mentions them).
-/

namespace AnjaniDeepa

/-- JavaScript regex whitespace class `\s`, restricted to the ASCII
whitespace characters (space, tab, line feed, carriage return, vertical
tab, form feed): the only ones the properties below exercise. -/
def isWsChar (c : Char) : Bool :=
  c = ' ' || c = '\t' || c = '\n' || c = '\r' || c = Char.ofNat 11 || c = Char.ofNat 12

/-- Model of `String.prototype.replace(/\s+/g, '_')`: each maximal run of
whitespace becomes a single underscore. The `Bool` records whether the
previous character was whitespace. -/
def collapseWsAux : Bool → List Char → List Char
  | _, [] => []
  | prevWs, c :: cs =>
    if isWsChar c then
      if prevWs then collapseWsAux true cs
      else '_' :: collapseWsAux true cs
    else c :: collapseWsAux false cs

def collapseWs (s : String) : String :=
  ⟨collapseWsAux false s.toList⟩

/-- Split a character list on a separator character (the groups between
separators, in order; structural recursion so the kernel can evaluate). -/
def splitOnChar (sep : Char) : List Char → List (List Char)
  | [] => [[]]
  | c :: cs =>
    if c = sep then [] :: splitOnChar sep cs
    else
      match splitOnChar sep cs with
      | [] => [[c]]
      | g :: gs => (c :: g) :: gs

/-- ASCII lowercasing (the only case JavaScript's `toLowerCase` needs for
the extension strings compared here). -/
def lowerStr (s : String) : String :=
  ⟨s.toList.map Char.toLower⟩

/-- Model of Node's `path.basename`: the part after the last `/`. -/
def basename (p : String) : String :=
  ⟨(splitOnChar '/' p.toList).getLastD p.toList⟩

/-- Model of Node's `path.extname` composed with the basename: the suffix
from the last dot of the basename, empty when the basename has no dot or
only a leading dot. -/
def extname (p : String) : String :=
  let base := (splitOnChar '/' p.toList).getLastD p.toList
  match splitOnChar '.' base with
  | [] => ""
  | [_] => ""
  | first :: rest =>
    if first.isEmpty && rest.length = 1 then ""
    else ⟨'.' :: rest.getLastD []⟩

/-- Abstract absolute path of the server's directory (`__dirname`). -/
def dirname : String := "/srv/app"

def stripLeadingSlashes (s : String) : String :=
  ⟨s.toList.dropWhile (· = '/')⟩

/-- Model of `resumePath.split('/').join(path.sep).split('\\').join(path.sep)`
with `path.sep = '/'`: every backslash becomes a forward slash. -/
def normalizeSeps (s : String) : String :=
  ⟨s.toList.map (fun c => if c = '\\' then '/' else c)⟩

/-- The absolute path a stored `resume` reference resolves to on every
delete path: leading slashes stripped, separators normalized, joined under
`__dirname`. -/
def resumeFull (resume : String) : String :=
  dirname ++ "/" ++ normalizeSeps (stripLeadingSlashes resume)

/-- Model of `if (fs.existsSync(p)) fs.unlinkSync(p)` on the disk model:
removing a path from the list of existing files. -/
def rmIfExists (p : String) (files : List String) : List String :=
  files.filter (fun q => q ≠ p)

/-- JavaScript `parseInt(s, 10)`: skip leading whitespace, optional sign,
then the maximal run of decimal digits; `none` models `NaN`. -/
def digitsVal (cs : List Char) : Option Nat :=
  let ds := cs.takeWhile Char.isDigit
  if ds = [] then none
  else some (ds.foldl (fun acc c => acc * 10 + (c.toNat - 48)) 0)

def parseIntJS (s : String) : Option Int :=
  match s.toList.dropWhile isWsChar with
  | '-' :: rest => (digitsVal rest).map (fun n => -(n : Int))
  | '+' :: rest => (digitsVal rest).map (fun n => (n : Int))
  | cs => (digitsVal cs).map (fun n => (n : Int))

/-- JavaScript `v || d` on a parsed number: `NaN` and `0` fall back. -/
def numOr (v : Option Int) (d : Int) : Int :=
  match v with
  | none => d
  | some n => if n = 0 then d else n

/-- `Math.max(1, parseInt(openings || '1', 10) || 1)` from `POST /admin/jobs`. -/
def clampOpenings (openings : String) : Nat :=
  (max 1 (numOr (parseIntJS (if openings = "" then "1" else openings)) 1)).toNat

/-- `Math.max(0, Math.min(50, parseInt(experience || '0', 10) || 0))`. -/
def clampExperience (experience : String) : Nat :=
  (max 0 (min 50 (numOr (parseIntJS (if experience = "" then "0" else experience)) 0))).toNat

/-- Model of `/^[^\s@]+@[^\s@]+\.[^\s@]+$/.test(email)`: exactly one `@`,
a nonempty whitespace-free part before it, and a nonempty whitespace-free
part after it containing a dot that is neither its first nor its last
character. -/
def emailOk (s : String) : Bool :=
  match splitOnChar '@' s.toList with
  | [lp, domain] =>
    !lp.isEmpty && !domain.isEmpty && lp.all (fun c => !(isWsChar c)) &&
      domain.all (fun c => !(isWsChar c)) && ((domain.drop 1).dropLast.contains '.')
  | _ => false

/-- Model of `/^[0-9+\-\s]{7,20}$/.test(phone)`. -/
def phoneOk (s : String) : Bool :=
  s.toList.all (fun c => c.isDigit || c = '+' || c = '-' || isWsChar c) &&
    decide (7 ≤ s.length) && decide (s.length ≤ 20)

/-- A job posting as created by `POST /admin/jobs` and stored in
`data/jobs.json`. -/
structure Job where
  id : Nat
  title : String
  location : String
  description : String
  openings : Nat
  experience : Nat
  postedAt : String
deriving Repr, DecidableEq

/-- An application as created by `POST /jobs/:id/apply` and stored in
`data/applications.json`; `resume` is the stored `/uploads/...` reference
or `none`. -/
structure Application where
  id : Nat
  jobId : Nat
  name : String
  email : String
  phone : String
  cover : String
  resume : Option String
  appliedAt : String
deriving Repr, DecidableEq

/-- One line of `data/email-log.jsonl` as written by `logMailAttempt`
(the timestamp field is omitted from the model). -/
structure MailLogEntry where
  toAddr : String
  subject : String
  sent : Bool
  note : Option String
  error : Option String
deriving Repr, DecidableEq

/-- One POST actually dispatched to the EmailJS HTTP API by `sendEmailJS`:
the template it targets and the flat `template_params` mapping. -/
structure SendRecord where
  templateId : String
  params : List (String × String)
deriving Repr, DecidableEq

/-- The EmailJS environment configuration (`""` = unset/empty, which is
falsy in every test the code performs) plus `SMTP_USER`. -/
structure MailConfig where
  serviceId : String
  userId : String
  templateConfirm : String
  templateReject : String
  smtpUser : String
deriving Repr, DecidableEq

/-- `mailerConfigured`: set exactly when all four EmailJS identifiers are
present (truthy). -/
def mailerConfigured (c : MailConfig) : Bool :=
  c.serviceId ≠ "" && c.userId ≠ "" && c.templateConfirm ≠ "" && c.templateReject ≠ ""

/-- `COMPANY_EMAIL = process.env.SMTP_USER || 'contact@anjanideepa.example'`. -/
def companyEmail (c : MailConfig) : String :=
  if c.smtpUser = "" then "contact@anjanideepa.example" else c.smtpUser

/-- What the `fetch` to the EmailJS endpoint does, supplied as an oracle:
an ok response, a non-ok HTTP response, or a network error thrown. -/
inductive FetchOutcome where
  | ok
  | httpErr (status : Nat) (text : String)
  | netErr (msg : String)
deriving Repr, DecidableEq

/-- The file a client attached to the multipart form, as the middleware
sees it before deciding anything. -/
structure UploadedFile where
  originalname : String
  mimetype : String
  size : Nat
deriving Repr, DecidableEq

/-- The text fields of the apply form; a missing field is `""` (both are
falsy, and the code normalizes with `name || ''`). -/
structure ApplyForm where
  name : String
  email : String
  phone : String
  cover : String
deriving Repr, DecidableEq

/-- The response a handler produces. -/
inductive Response where
  | forbidden
  | notFound (msg : String)
  | serverError (msg : String)
  | redirect (location : String)
  | renderApply (error : String) (form : ApplyForm)
  | renderSuccess (application : Application)
deriving Repr, DecidableEq

/-- HTTP status of a response (renders are 200, redirects 302). -/
def Response.status : Response → Nat
  | .forbidden => 403
  | .notFound _ => 404
  | .serverError _ => 500
  | .redirect _ => 302
  | .renderApply _ _ => 200
  | .renderSuccess _ => 200

/-- Everything a request handler can observe or mutate: the two decoded
stores, the files existing on disk, the mail log, the console, and the
sends dispatched to the EmailJS API (one entry per network call). -/
structure St where
  jobs : List Job
  apps : List Application
  files : List String
  mailLog : List MailLogEntry
  console : List String
  sends : List SendRecord
deriving Repr, DecidableEq

/-! ## The job-store file (`readJobs`/`writeJobs`)

`writeJobs` serializes the job array with `JSON.stringify` and
`readJobs` parses the file with `JSON.parse`, returning `[]` on any
read or parse failure. The model works at the level of the JSON value
tree (Node's stringify/parse pair is the identity on such trees): the
file content is `Option Json`, `none` standing for a missing or
unparsable file. The typed decoder is the model's view of the untyped
parsed array; request handlers then operate on the decoded store held
in `St`. -/

inductive Json where
  | null
  | bool (b : Bool)
  | num (n : Int)
  | str (s : String)
  | arr (elems : List Json)
  | obj (fields : List (String × Json))

def jGet (fields : List (String × Json)) (k : String) : Option Json :=
  (fields.find? (fun kv => kv.1 = k)).map (fun kv => kv.2)

def Json.asStr : Json → Option String
  | .str s => some s
  | _ => none

def Json.asNat : Json → Option Nat
  | .num (.ofNat n) => some n
  | _ => none

def Job.toJson (j : Job) : Json :=
  .obj [("id", .num (.ofNat j.id)), ("title", .str j.title),
        ("location", .str j.location), ("description", .str j.description),
        ("openings", .num (.ofNat j.openings)), ("experience", .num (.ofNat j.experience)),
        ("postedAt", .str j.postedAt)]

def Job.ofJson (v : Json) : Option Job :=
  match v with
  | .obj fields => do
    let id ← (jGet fields "id").bind Json.asNat
    let title ← (jGet fields "title").bind Json.asStr
    let location ← (jGet fields "location").bind Json.asStr
    let description ← (jGet fields "description").bind Json.asStr
    let openings ← (jGet fields "openings").bind Json.asNat
    let experience ← (jGet fields "experience").bind Json.asNat
    let postedAt ← (jGet fields "postedAt").bind Json.asStr
    pure ⟨id, title, location, description, openings, experience, postedAt⟩
  | _ => none

def jobsToJson (js : List Job) : Json :=
  .arr (js.map Job.toJson)

def jobsOfJsonList : List Json → Option (List Job)
  | [] => some []
  | v :: vs =>
    match Job.ofJson v with
    | none => none
    | some j =>
      match jobsOfJsonList vs with
      | none => none
      | some js => some (j :: js)

def jobsOfJson : Json → Option (List Job)
  | .arr vs => jobsOfJsonList vs
  | _ => none

/-- `writeJobs(jobs)`: the file content after `fs.writeFileSync` of the
serialized array. -/
def writeJobs (js : List Job) : Option Json :=
  some (jobsToJson js)

/-- `readJobs()`: parse the file, `[]` on failure. -/
def readJobs (content : Option Json) : List Job :=
  match content with
  | none => []
  | some v => (jobsOfJson v).getD []

/-! ## The upload middleware -/

def MIN_RESUME_BYTES : Nat := 50 * 1024

def MAX_RESUME_BYTES : Nat := 5 * 1024 * 1024

def allowedMime : List String :=
  ["application/pdf", "application/msword",
   "application/vnd.openxmlformats-officedocument.wordprocessingml.document"]

def allowedExt : List String := [".pdf", ".doc", ".docx"]

/-- The multer `fileFilter` callback: accept when the lowercased extension
is allowed and the mimetype is allowed, also when the extension alone is
allowed; otherwise fail with the file-type error. -/
def fileFilter (f : UploadedFile) : Except String Unit :=
  let ext := lowerStr (extname f.originalname)
  if allowedExt.contains ext && allowedMime.contains f.mimetype then .ok ()
  else if allowedExt.contains ext then .ok ()
  else .error "Invalid file type. Only PDF, DOC and DOCX are allowed"

def fileFilterAccepts (f : UploadedFile) : Bool :=
  match fileFilter f with
  | .ok _ => true
  | .error _ => false

/-- The disk-storage filename: `Date.now() + '-' + originalname with
whitespace runs replaced by underscores`. -/
def uploadFilename (now : Nat) (orig : String) : String :=
  toString now ++ "-" ++ collapseWs orig

/-- The absolute path the middleware stores an accepted file under. -/
def uploadPath (now : Nat) (orig : String) : String :=
  dirname ++ "/uploads/" ++ uploadFilename now orig

/-- Outcome of running `upload.single('resume')`: the error it passes to
the handler (if any), `req.file` (path and size), and the disk contents
after the middleware. -/
structure MulterOut where
  err : Option String
  reqFile : Option (String × Nat)
  files : List String
deriving Repr, DecidableEq

/-- Model of the multer middleware with `storage`, `limits.fileSize` and
`fileFilter` as configured: no file does nothing; a file rejected by
`fileFilter` is never written; an accepted file larger than the limit
produces the size error with the partial file removed; otherwise the file
is saved and `req.file` set. -/
def runMulter (file : Option UploadedFile) (now : Nat) (files : List String) : MulterOut :=
  match file with
  | none => ⟨none, none, files⟩
  | some f =>
    if fileFilterAccepts f then
      if f.size > MAX_RESUME_BYTES then
        ⟨some "File too large", none, files⟩
      else
        let p := uploadPath now f.originalname
        ⟨none, some (p, f.size), p :: files⟩
    else
      ⟨some "Invalid file type. Only PDF, DOC and DOCX are allowed", none, files⟩

/-! ## The notification dispatcher -/

/-- `sendEmailJS(templateId, templateParams)`: throws when unconfigured;
otherwise POSTs to the EmailJS endpoint (the returned `SendRecord` is that
network call), succeeding on an ok response and throwing on a non-ok
response or a network error. -/
def sendEmailJS (cfg : MailConfig) (fetchOut : FetchOutcome) (templateId : String)
    (params : List (String × String)) : Except String Unit × Option SendRecord :=
  if mailerConfigured cfg then
    match fetchOut with
    | .ok => (.ok (), some ⟨templateId, params⟩)
    | .httpErr status text =>
      (.error ("EmailJS API failed with status " ++ toString status ++ ": " ++ text),
        some ⟨templateId, params⟩)
    | .netErr msg => (.error msg, some ⟨templateId, params⟩)
  else
    (.error "EmailJS not configured.", none)

/-- `templateParams` built by `POST /jobs/:id/apply` for the confirmation
template. -/
def confirmTemplateParams (name email phone cover : String) (job : Job)
    (sender : String) : List (String × String) :=
  [("applicant_name", name), ("applicant_email", email), ("job_title", job.title),
   ("job_location", job.location), ("phone_number", phone), ("cover_letter", cover),
   ("company_email", sender), ("email", email)]

/-- `templateParams` built by `POST /admin/applications/:id/reject` for the
rejection template. -/
def rejectTemplateParams (a : Application) (jobTitle : String)
    (sender : String) : List (String × String) :=
  [("applicant_name", a.name), ("applicant_email", a.email), ("job_title", jobTitle),
   ("company_email", sender), ("email", a.email)]

/-! ## Request handlers -/

/-- Delete `req.file` from disk if it was set and still exists
(the guarded `fs.unlinkSync(req.file.path)` pattern). -/
def deleteReqFile (reqFile : Option (String × Nat)) (s : St) : St :=
  match reqFile with
  | some (p, _) => { s with files := rmIfExists p s.files }
  | none => s

/-- The confirmation-mail section of `POST /jobs/:id/apply`: when
configured, attempt the send and log success or the caught error; when
not, print the intended message and log a not-sent line. -/
def confirmMailStep (cfg : MailConfig) (fetchOut : FetchOutcome) (toAddr subject : String)
    (params : List (String × String)) (s : St) : St :=
  if mailerConfigured cfg then
    match sendEmailJS cfg fetchOut cfg.templateConfirm params with
    | (.ok _, rec) =>
      { s with
        sends := s.sends ++ rec.toList,
        console := s.console ++ ["Confirmation email sent to " ++ toAddr ++ " via EmailJS"],
        mailLog := s.mailLog ++ [MailLogEntry.mk toAddr subject true (some "EmailJS") none] }
    | (.error e, rec) =>
      { s with
        sends := s.sends ++ rec.toList,
        console := s.console ++ ["Error sending email via EmailJS API"],
        mailLog := s.mailLog ++ [MailLogEntry.mk toAddr subject false none (some e)] }
  else
    { s with
      console := s.console ++ ["Email (not sent) would be the template parameters"],
      mailLog := s.mailLog ++
        [MailLogEntry.mk toAddr subject false (some "EmailJS not configured") none] }

/-- The rejection-mail section of `POST /admin/applications/:id/reject`. -/
def rejectMailStep (cfg : MailConfig) (fetchOut : FetchOutcome) (toAddr subject : String)
    (params : List (String × String)) (s : St) : St :=
  if mailerConfigured cfg then
    match sendEmailJS cfg fetchOut cfg.templateReject params with
    | (.ok _, rec) =>
      { s with
        sends := s.sends ++ rec.toList,
        console := s.console ++ ["Rejection email sent to " ++ toAddr ++ " via EmailJS"],
        mailLog := s.mailLog ++
          [MailLogEntry.mk toAddr subject true (some "EmailJS Rejection") none] }
    | (.error _, rec) =>
      { s with
        sends := s.sends ++ rec.toList,
        console := s.console ++ ["Error sending rejection email via EmailJS API"],
        mailLog := s.mailLog ++
          [MailLogEntry.mk toAddr subject false (some "EmailJS Rejection error") none] }
  else
    { s with
      console := s.console ++
        ["Rejection email (not sent, EmailJS not configured) would be the template parameters"],
      mailLog := s.mailLog ++
        [MailLogEntry.mk toAddr subject false (some "Rejection - not configured") none] }

/-- `POST /jobs/:id/apply`: the upload middleware runs first, then the
handler looks the job up, runs the validation chain (each failure deleting
the saved file where the code does), appends the application, and attempts
the confirmation notification. -/
def applyHandler (idParam : String) (form : ApplyForm) (file : Option UploadedFile)
    (now : Nat) (cfg : MailConfig) (fetchOut : FetchOutcome) (s : St) : Response × St :=
  let m := runMulter file now s.files
  let s1 : St := { s with files := m.files }
  match s1.jobs.find? (fun j => toString j.id == idParam) with
  | none => (.notFound "Job not found", s1)
  | some job =>
    match m.err with
    | some emsg => (.renderApply emsg form, deleteReqFile m.reqFile s1)
    | none =>
      if form.name = "" ∨ form.email = "" ∨ form.phone = "" ∨ form.cover = "" then
        (.renderApply "All fields are required" form, deleteReqFile m.reqFile s1)
      else if !emailOk form.email then
        (.renderApply "Please enter a valid email address" form, deleteReqFile m.reqFile s1)
      else if !phoneOk form.phone then
        (.renderApply "Please enter a valid phone number" form, deleteReqFile m.reqFile s1)
      else
        match m.reqFile with
        | none =>
          (.renderApply "Resume is required and must be PDF/DOC/DOCX within size limits" form, s1)
        | some (p, sz) =>
          if sz < MIN_RESUME_BYTES then
            (.renderApply "Resume file is too small (min 50 KB)" form,
              { s1 with files := rmIfExists p s1.files })
          else
            let application : Application :=
              { id := now, jobId := job.id, name := form.name, email := form.email,
                phone := form.phone, cover := form.cover,
                resume := some ("/uploads/" ++ basename p), appliedAt := toString now }
            let s2 := { s1 with apps := s1.apps ++ [application] }
            let params :=
              confirmTemplateParams form.name form.email form.phone form.cover job
                (companyEmail cfg)
            let subject := "Application Received: " ++ job.title
            (.renderSuccess application,
              confirmMailStep cfg fetchOut application.email subject params s2)

/-- `POST /admin/jobs`: append a job with clamped numeric fields. -/
def addJobHandler (sess : Bool) (title location description openings experience : String)
    (now : Nat) (s : St) : Response × St :=
  if sess then
    let job : Job :=
      { id := now, title := title, location := location, description := description,
        openings := clampOpenings openings, experience := clampExperience experience,
        postedAt := toString now }
    (.redirect "/admin", { s with jobs := s.jobs ++ [job] })
  else (.forbidden, s)

/-- The `apps.forEach` loop of `POST /admin/jobs/:id/delete`: drop every
application whose `jobId` string-equals the job id, unlinking its resume
file along the way; keep the rest in order. -/
def cascadeApps (idParam : String) : List Application → List String → List Application × List String
  | [], files => ([], files)
  | a :: rest, files =>
    if toString a.jobId == idParam then
      let files1 :=
        match a.resume with
        | some r => rmIfExists (resumeFull r) files
        | none => files
      cascadeApps idParam rest files1
    else
      (a :: (cascadeApps idParam rest files).1, (cascadeApps idParam rest files).2)

/-- `POST /admin/jobs/:id/delete`: session check, filter the job out,
verify by re-reading, then cascade over the applications. -/
def deleteJobHandler (sess : Bool) (idParam : String) (s : St) : Response × St :=
  if sess then
    let filtered := s.jobs.filter (fun j => toString j.id != idParam)
    let s1 := { s with jobs := filtered }
    let stillExists := s1.jobs.any (fun j => toString j.id == idParam)
    if stillExists then (.serverError "Failed to delete job", s1)
    else
      (.redirect "/admin",
        { s1 with
          apps := (cascadeApps idParam s1.apps s1.files).1,
          files := (cascadeApps idParam s1.apps s1.files).2 })
  else (.forbidden, s)

/-- The `apps.forEach` loop of `POST /admin/applications/:id/delete`,
keyed on the application id. -/
def deleteAppsLoop (idParam : String) : List Application → List String → List Application × List String
  | [], files => ([], files)
  | a :: rest, files =>
    if toString a.id == idParam then
      let files1 :=
        match a.resume with
        | some r => rmIfExists (resumeFull r) files
        | none => files
      deleteAppsLoop idParam rest files1
    else
      (a :: (deleteAppsLoop idParam rest files).1, (deleteAppsLoop idParam rest files).2)

/-- `POST /admin/applications/:id/delete`. -/
def deleteApplicationHandler (sess : Bool) (idParam : String) (s : St) : Response × St :=
  if sess then
    (.redirect "/admin",
      { s with
        apps := (deleteAppsLoop idParam s.apps s.files).1,
        files := (deleteAppsLoop idParam s.apps s.files).2 })
  else (.forbidden, s)

/-- `POST /admin/applications/:id/reject`: find the application by index,
attempt the rejection notification (any outcome), then remove the record
at that index and unlink its resume file. -/
def rejectHandler (sess : Bool) (idParam : String) (cfg : MailConfig)
    (fetchOut : FetchOutcome) (s : St) : Response × St :=
  if sess then
    match s.apps.findIdx? (fun a => toString a.id == idParam) with
    | none => (.redirect "/admin", s)
    | some appIndex =>
      match s.apps[appIndex]? with
      | none => (.redirect "/admin", s)
      | some appR =>
        let jobTitle :=
          match s.jobs.find? (fun j => j.id == appR.jobId) with
          | some job => job.title
          | none => "a job"
        let params := rejectTemplateParams appR jobTitle (companyEmail cfg)
        let subject := "Update on Application for " ++ jobTitle
        let s1 := rejectMailStep cfg fetchOut appR.email subject params s
        let remainingApps := s1.apps.eraseIdx appIndex
        let s2 :=
          match appR.resume with
          | some r => { s1 with files := rmIfExists (resumeFull r) s1.files }
          | none => s1
        (.redirect "/admin", { s2 with apps := remainingApps })
  else (.forbidden, s)

/-! ## Concrete fixtures for witnesses and counterexamples -/

def jobW : Job := ⟨1, "Welder", "Vizag", "welds structures", 2, 3, "t0"⟩

def appW : Application := ⟨10, 1, "Asha", "a@b.co", "1234567", "cv", some "/uploads/10-r.pdf", "t1"⟩

def appW2 : Application := ⟨11, 2, "Bala", "b@c.co", "1234567", "cv2", some "/uploads/11-s.pdf", "t2"⟩

def stW : St :=
  ⟨[jobW], [appW, appW2], ["/srv/app/uploads/10-r.pdf", "/srv/app/uploads/11-s.pdf"], [], [], []⟩

def cfgW : MailConfig := ⟨"svc", "usr", "tc", "tr", "hr@co.in"⟩

def cfgUnsetW : MailConfig := ⟨"", "usr", "tc", "tr", ""⟩

def formW : ApplyForm := ⟨"Nia", "n@d.co", "1234567", "cover text"⟩

def fileW : UploadedFile := ⟨"r.pdf", "application/pdf", 60000⟩

def fileSmallW : UploadedFile := ⟨"r.pdf", "application/pdf", 100⟩

/-! ## Helper lemmas -/

theorem rmIfExists_not_mem_self (p : String) (l : List String) : p ∉ rmIfExists p l := by
  simp [rmIfExists]

theorem rmIfExists_subset (p : String) (l : List String) : ∀ q ∈ rmIfExists p l, q ∈ l := by
  intro q hq
  exact (List.mem_filter.mp hq).1

theorem rmIfExists_of_not_mem (p : String) (l : List String) (h : p ∉ l) :
    rmIfExists p l = l := by
  apply List.filter_eq_self.mpr
  intro q hq
  simp only [decide_eq_true_eq]
  intro hqp
  exact h (hqp ▸ hq)

theorem rmIfExists_cons_self (p : String) (l : List String) (h : p ∉ l) :
    rmIfExists p (p :: l) = l := by
  have h0 : rmIfExists p (p :: l) = rmIfExists p l := by
    simp [rmIfExists, List.filter_cons]
  rw [h0, rmIfExists_of_not_mem p l h]

theorem job_roundtrip_single (j : Job) : Job.ofJson (Job.toJson j) = some j := rfl

theorem jobs_roundtrip_list (js : List Job) :
    jobsOfJsonList (js.map Job.toJson) = some js := by
  induction js with
  | nil => rfl
  | cons j rest ih => simp [jobsOfJsonList, job_roundtrip_single, ih]

theorem cascadeApps_fst (idParam : String) (apps : List Application) :
    ∀ files, (cascadeApps idParam apps files).1
      = apps.filter (fun a => toString a.jobId != idParam) := by
  induction apps with
  | nil => intro files; rfl
  | cons a rest ih =>
    intro files
    by_cases h : (toString a.jobId == idParam) = true
    · simp [cascadeApps, h, ih, List.filter_cons]
      rw [if_pos (eq_of_beq h)]
    · simp [cascadeApps, h, ih, List.filter_cons]
      rw [if_neg (fun he => h (by simp [he]))]

theorem cascadeApps_files_subset (idParam : String) (apps : List Application) :
    ∀ files, ∀ q ∈ (cascadeApps idParam apps files).2, q ∈ files := by
  induction apps with
  | nil =>
    intro files q hq
    simpa [cascadeApps] using hq
  | cons a rest ih =>
    intro files q hq
    by_cases h : (toString a.jobId == idParam) = true
    · cases hr : a.resume with
      | none => exact ih files q (by simpa [cascadeApps, h, hr] using hq)
      | some r =>
        have hsub := ih (rmIfExists (resumeFull r) files) q
          (by simpa [cascadeApps, h, hr] using hq)
        exact rmIfExists_subset _ _ q hsub
    · exact ih files q (by simpa [cascadeApps, h] using hq)

theorem cascadeApps_deletes (idParam : String) (apps : List Application) :
    ∀ files, ∀ a ∈ apps, (toString a.jobId == idParam) = true →
      ∀ r, a.resume = some r → resumeFull r ∉ (cascadeApps idParam apps files).2 := by
  induction apps with
  | nil =>
    intro files a ha
    cases ha
  | cons b rest ih =>
    intro files a ha hmatch r hres hmem
    rcases List.mem_cons.mp ha with heq | hrest
    · subst heq
      have hin : resumeFull r ∈ rmIfExists (resumeFull r) files := by
        apply cascadeApps_files_subset idParam rest (rmIfExists (resumeFull r) files)
        simpa [cascadeApps, hmatch, hres] using hmem
      exact rmIfExists_not_mem_self _ _ hin
    · by_cases hb : (toString b.jobId == idParam) = true
      · cases hrb : b.resume with
        | none =>
          exact ih files a hrest hmatch r hres (by simpa [cascadeApps, hb, hrb] using hmem)
        | some rb =>
          exact ih (rmIfExists (resumeFull rb) files) a hrest hmatch r hres
            (by simpa [cascadeApps, hb, hrb] using hmem)
      · exact ih files a hrest hmatch r hres (by simpa [cascadeApps, hb] using hmem)

theorem confirmMailStep_preserves (cfg : MailConfig) (fetchOut : FetchOutcome)
    (toAddr subject : String) (params : List (String × String)) (s : St) :
    (confirmMailStep cfg fetchOut toAddr subject params s).jobs = s.jobs ∧
    (confirmMailStep cfg fetchOut toAddr subject params s).apps = s.apps ∧
    (confirmMailStep cfg fetchOut toAddr subject params s).files = s.files := by
  by_cases hc : mailerConfigured cfg = true
  · cases fetchOut <;> simp [confirmMailStep, sendEmailJS, hc]
  · simp [confirmMailStep, hc]

theorem rejectMailStep_preserves (cfg : MailConfig) (fetchOut : FetchOutcome)
    (toAddr subject : String) (params : List (String × String)) (s : St) :
    (rejectMailStep cfg fetchOut toAddr subject params s).jobs = s.jobs ∧
    (rejectMailStep cfg fetchOut toAddr subject params s).apps = s.apps ∧
    (rejectMailStep cfg fetchOut toAddr subject params s).files = s.files := by
  by_cases hc : mailerConfigured cfg = true
  · cases fetchOut <;> simp [rejectMailStep, sendEmailJS, hc]
  · simp [rejectMailStep, hc]

theorem confirmMailStep_unconfigured (cfg : MailConfig) (fetchOut : FetchOutcome)
    (toAddr subject : String) (params : List (String × String)) (s : St)
    (hc : mailerConfigured cfg = false) :
    confirmMailStep cfg fetchOut toAddr subject params s =
      { s with
        console := s.console ++ ["Email (not sent) would be the template parameters"],
        mailLog := s.mailLog ++
          [MailLogEntry.mk toAddr subject false (some "EmailJS not configured") none] } := by
  simp [confirmMailStep, hc]

theorem rejectMailStep_unconfigured (cfg : MailConfig) (fetchOut : FetchOutcome)
    (toAddr subject : String) (params : List (String × String)) (s : St)
    (hc : mailerConfigured cfg = false) :
    rejectMailStep cfg fetchOut toAddr subject params s =
      { s with
        console := s.console ++
          ["Rejection email (not sent, EmailJS not configured) would be the template parameters"],
        mailLog := s.mailLog ++
          [MailLogEntry.mk toAddr subject false (some "Rejection - not configured") none] } := by
  simp [rejectMailStep, hc]

theorem filtered_jobs_any_eq_false (jobs : List Job) (idParam : String) :
    (jobs.filter (fun j => toString j.id != idParam)).any
      (fun j => toString j.id == idParam) = false := by
  rw [Bool.eq_false_iff]
  intro hx
  obtain ⟨j, hj, hj2⟩ := List.any_eq_true.mp hx
  have hne := (List.mem_filter.mp hj).2
  rw [bne_iff_ne] at hne
  exact hne (eq_of_beq hj2)

/-- Any validation failure of the apply handler that fires after the file
was saved (missing field, invalid email, invalid phone, undersized resume)
deletes the saved file, re-renders the form with the submitted values, and
appends nothing. -/
theorem apply_saved_failure_clean (idParam : String) (form : ApplyForm) (f : UploadedFile)
    (now : Nat) (cfg : MailConfig) (fetchOut : FetchOutcome) (s : St) (job : Job)
    (hjob : s.jobs.find? (fun j => toString j.id == idParam) = some job)
    (haccept : fileFilterAccepts f = true)
    (hmax : ¬ f.size > MAX_RESUME_BYTES)
    (hfresh : uploadPath now f.originalname ∉ s.files)
    (hfail : form.name = "" ∨ form.email = "" ∨ form.phone = "" ∨ form.cover = "" ∨
             emailOk form.email = false ∨ phoneOk form.phone = false ∨
             f.size < MIN_RESUME_BYTES) :
    (∃ e, (applyHandler idParam form (some f) now cfg fetchOut s).1 = .renderApply e form) ∧
    (applyHandler idParam form (some f) now cfg fetchOut s).2.files = s.files ∧
    (applyHandler idParam form (some f) now cfg fetchOut s).2.apps = s.apps := by
  by_cases h1 : form.name = "" ∨ form.email = "" ∨ form.phone = "" ∨ form.cover = ""
  · refine ⟨⟨"All fields are required", ?_⟩, ?_, ?_⟩ <;>
      simp [applyHandler, runMulter, haccept, hmax, hjob, h1, deleteReqFile,
        rmIfExists_cons_self _ _ hfresh]
  · cases he : emailOk form.email with
    | false =>
      refine ⟨⟨"Please enter a valid email address", ?_⟩, ?_, ?_⟩ <;>
        simp [applyHandler, runMulter, haccept, hmax, hjob, h1, he, deleteReqFile,
          rmIfExists_cons_self _ _ hfresh]
    | true =>
      cases hp : phoneOk form.phone with
      | false =>
        refine ⟨⟨"Please enter a valid phone number", ?_⟩, ?_, ?_⟩ <;>
          simp [applyHandler, runMulter, haccept, hmax, hjob, h1, he, hp, deleteReqFile,
            rmIfExists_cons_self _ _ hfresh]
      | true =>
        have hmin : f.size < MIN_RESUME_BYTES := by
          rcases hfail with h | h | h | h | h | h | h
          · exact absurd (Or.inl h) h1
          · exact absurd (Or.inr (Or.inl h)) h1
          · exact absurd (Or.inr (Or.inr (Or.inl h))) h1
          · exact absurd (Or.inr (Or.inr (Or.inr h))) h1
          · simp [he] at h
          · simp [hp] at h
          · exact h
        refine ⟨⟨"Resume file is too small (min 50 KB)", ?_⟩, ?_, ?_⟩ <;>
          simp [applyHandler, runMulter, haccept, hmax, hjob, h1, he, hp, hmin,
            rmIfExists_cons_self _ _ hfresh]

/-- The record the apply handler appends and renders on success. -/
def applicationOf (form : ApplyForm) (job : Job) (now : Nat) (f : UploadedFile) : Application :=
  { id := now, jobId := job.id, name := form.name, email := form.email, phone := form.phone,
    cover := form.cover, resume := some ("/uploads/" ++ basename (uploadPath now f.originalname)),
    appliedAt := toString now }

/-- Shape of a fully valid application submission: the file is saved, the
record appended, and the confirmation-mail step runs on that state. -/
theorem applyHandler_success_shape (idParam : String) (form : ApplyForm) (f : UploadedFile)
    (now : Nat) (cfg : MailConfig) (fetchOut : FetchOutcome) (s : St) (job : Job)
    (hjob : s.jobs.find? (fun j => toString j.id == idParam) = some job)
    (haccept : fileFilterAccepts f = true)
    (hmax : ¬ f.size > MAX_RESUME_BYTES)
    (hmin : ¬ f.size < MIN_RESUME_BYTES)
    (hfields : ¬ (form.name = "" ∨ form.email = "" ∨ form.phone = "" ∨ form.cover = ""))
    (hemail : emailOk form.email = true)
    (hphone : phoneOk form.phone = true) :
    applyHandler idParam form (some f) now cfg fetchOut s =
      (.renderSuccess (applicationOf form job now f),
        confirmMailStep cfg fetchOut form.email ("Application Received: " ++ job.title)
          (confirmTemplateParams form.name form.email form.phone form.cover job (companyEmail cfg))
          { s with
            files := uploadPath now f.originalname :: s.files,
            apps := s.apps ++ [applicationOf form job now f] }) := by
  simp [applyHandler, runMulter, haccept, hmax, hmin, hjob, hfields, hemail, hphone,
    applicationOf]

/-- Shape of the authenticated job-delete handler: the job filtered out of
the job store and the application cascade applied. -/
theorem deleteJobHandler_authed (idParam : String) (s : St) :
    deleteJobHandler true idParam s =
      (.redirect "/admin",
        { s with
          jobs := s.jobs.filter (fun j => toString j.id != idParam),
          apps := (cascadeApps idParam s.apps s.files).1,
          files := (cascadeApps idParam s.apps s.files).2 }) := by
  simp [deleteJobHandler, filtered_jobs_any_eq_false]

/-! ## The claims -/

/-- C1: for every authenticated `POST /admin/jobs/:id/delete` on job id `J`,
after the handler completes the application store contains no application
whose `jobId` string-equals `J` (the store is exactly the applications whose
`jobId` differs, unchanged and in order), and every resume file referenced
by a removed application is gone from disk. -/
theorem delete_job_cascades_applications (idParam : String) (s : St) :
    (deleteJobHandler true idParam s).2.apps
        = s.apps.filter (fun a => toString a.jobId != idParam) ∧
    (∀ a ∈ (deleteJobHandler true idParam s).2.apps, toString a.jobId ≠ idParam) ∧
    (∀ a ∈ s.apps, toString a.jobId = idParam →
      ∀ r, a.resume = some r → resumeFull r ∉ (deleteJobHandler true idParam s).2.files) := by
  rw [deleteJobHandler_authed]
  refine ⟨cascadeApps_fst idParam s.apps s.files, ?_, ?_⟩
  · intro a ha heq
    rw [cascadeApps_fst idParam s.apps s.files] at ha
    have h2 := (List.mem_filter.mp ha).2
    rw [bne_iff_ne] at h2
    exact h2 heq
  · intro a ha heq r hres
    exact cascadeApps_deletes idParam s.apps s.files a ha (beq_iff_eq.mpr heq) r hres

/-- C6: an unauthenticated POST to any mutating admin route (`/admin/jobs`,
`/admin/jobs/:id/delete`, `/admin/applications/:id/delete`,
`/admin/applications/:id/reject`) answers HTTP 403 Forbidden and leaves the
whole state — job store, application store, files on disk — unchanged. -/
theorem unauthenticated_admin_mutations_forbidden
    (title location description openings experience idParamA idParamB idParamC : String)
    (now : Nat) (cfg : MailConfig) (fetchOut : FetchOutcome) (s : St) :
    addJobHandler false title location description openings experience now s
        = (.forbidden, s) ∧
    deleteJobHandler false idParamA s = (.forbidden, s) ∧
    deleteApplicationHandler false idParamB s = (.forbidden, s) ∧
    rejectHandler false idParamC cfg fetchOut s = (.forbidden, s) ∧
    Response.forbidden.status = 403 :=
  ⟨rfl, rfl, rfl, rfl, rfl⟩

/-- C7: the upload filter accepts a file exactly when the lowercased
extension of its original name is one of `.pdf`, `.doc`, `.docx`, whatever
the declared content-type is; when the extension is outside the set the
file is rejected with the file-type error even if its content-type is in
the allow-list. -/
theorem upload_filter_extension_only (f : UploadedFile) :
    (fileFilterAccepts f = true ↔ lowerStr (extname f.originalname) ∈ allowedExt) ∧
    (fileFilter f = .error "Invalid file type. Only PDF, DOC and DOCX are allowed" ↔
      lowerStr (extname f.originalname) ∉ allowedExt) := by
  by_cases h : lowerStr (extname f.originalname) ∈ allowedExt
  · cases hm : allowedMime.contains f.mimetype <;>
      simp [fileFilterAccepts, fileFilter, h, hm]
  · simp [fileFilterAccepts, fileFilter, h]

/-- C9: writing any list of jobs with `writeJobs` and reading it back with
`readJobs` returns the same jobs with identical field values, in order. -/
theorem readJobs_writeJobs_roundtrip (js : List Job) :
    readJobs (writeJobs js) = js := by
  simp [readJobs, writeJobs, jobsToJson, jobsOfJson, jobs_roundtrip_list]

/-- C8 as stated is false: the rejection send's template parameters omit
the job location, the phone number and the cover letter. Concretely, the
send dispatched by an authenticated reject of application 10 (mailer
configured, transport ok) carries only applicant name/email, job title,
sender address and the duplicated recipient key. -/
theorem rejection_send_omits_fields :
    (rejectHandler true "10" cfgW .ok stW).2.sends
        = [⟨cfgW.templateReject, rejectTemplateParams appW "Welder" (companyEmail cfgW)⟩] ∧
    (rejectTemplateParams appW "Welder" (companyEmail cfgW)).lookup "job_location" = none ∧
    (rejectTemplateParams appW "Welder" (companyEmail cfgW)).lookup "phone_number" = none ∧
    (rejectTemplateParams appW "Welder" (companyEmail cfgW)).lookup "cover_letter" = none := by
  decide

/-- C8 amended: the confirmation payload is a flat mapping carrying the
applicant name and email, job title, job location, phone, cover letter,
sender address and the recipient duplicated under `email`; the rejection
payload carries the applicant name and email, job title, sender address
and the duplicated recipient, but no job location, phone or cover
letter. -/
theorem template_params_content (name email phone cover : String) (job : Job)
    (sender : String) (a : Application) (jobTitle : String) :
    (("applicant_name", name) ∈ confirmTemplateParams name email phone cover job sender ∧
     ("applicant_email", email) ∈ confirmTemplateParams name email phone cover job sender ∧
     ("job_title", job.title) ∈ confirmTemplateParams name email phone cover job sender ∧
     ("job_location", job.location) ∈ confirmTemplateParams name email phone cover job sender ∧
     ("phone_number", phone) ∈ confirmTemplateParams name email phone cover job sender ∧
     ("cover_letter", cover) ∈ confirmTemplateParams name email phone cover job sender ∧
     ("company_email", sender) ∈ confirmTemplateParams name email phone cover job sender ∧
     ("email", email) ∈ confirmTemplateParams name email phone cover job sender) ∧
    (("applicant_name", a.name) ∈ rejectTemplateParams a jobTitle sender ∧
     ("applicant_email", a.email) ∈ rejectTemplateParams a jobTitle sender ∧
     ("job_title", jobTitle) ∈ rejectTemplateParams a jobTitle sender ∧
     ("company_email", sender) ∈ rejectTemplateParams a jobTitle sender ∧
     ("email", a.email) ∈ rejectTemplateParams a jobTitle sender ∧
     (rejectTemplateParams a jobTitle sender).lookup "job_location" = none ∧
     (rejectTemplateParams a jobTitle sender).lookup "phone_number" = none ∧
     (rejectTemplateParams a jobTitle sender).lookup "cover_letter" = none) := by
  refine ⟨⟨?_, ?_, ?_, ?_, ?_, ?_, ?_, ?_⟩, ⟨?_, ?_, ?_, ?_, ?_, ?_, ?_, ?_⟩⟩ <;>
    simp [confirmTemplateParams, rejectTemplateParams, List.lookup]

/-- C4: an authenticated reject of an existing application id removes the
record at the found index from the store and deletes its resume file, for
every mail configuration and every transport outcome (unconfigured,
response ok, HTTP error, network error), and still redirects to the admin
page. -/
theorem reject_removes_for_every_outcome (idParam : String) (cfg : MailConfig)
    (fetchOut : FetchOutcome) (s : St) (i : Nat) (appR : Application)
    (hfind : s.apps.findIdx? (fun a => toString a.id == idParam) = some i)
    (hget : s.apps[i]? = some appR) :
    (rejectHandler true idParam cfg fetchOut s).2.apps = s.apps.eraseIdx i ∧
    (∀ r, appR.resume = some r →
      resumeFull r ∉ (rejectHandler true idParam cfg fetchOut s).2.files) ∧
    (rejectHandler true idParam cfg fetchOut s).1 = .redirect "/admin" := by
  refine ⟨?_, ?_, ?_⟩
  · simp only [rejectHandler, if_true, hfind, hget]
    rw [(rejectMailStep_preserves _ _ _ _ _ _).2.1]
  · intro r hres
    simp only [rejectHandler, if_true, hfind, hget, hres]
    exact rmIfExists_not_mem_self _ _
  · simp only [rejectHandler, if_true, hfind, hget]

/-- Witness for C4: application 10 of the concrete store is removed and
its resume file deleted although the transport fails with a network
error. -/
theorem reject_removes_for_every_outcome_witness :
    (rejectHandler true "10" cfgW (.netErr "boom") stW).2.apps = stW.apps.eraseIdx 0 ∧
    (∀ r, appW.resume = some r →
      resumeFull r ∉ (rejectHandler true "10" cfgW (.netErr "boom") stW).2.files) ∧
    (rejectHandler true "10" cfgW (.netErr "boom") stW).1 = .redirect "/admin" :=
  reject_removes_for_every_outcome "10" cfgW (.netErr "boom") stW 0 appW
    (by decide) (by decide)

/-- C10: a `POST /jobs/:id/apply` for an id matching no stored job answers
404 `Job not found`, appends no application, and leaves the resume file
the middleware already saved on disk (it is not deleted). -/
theorem apply_unknown_job_404_keeps_file (idParam : String) (form : ApplyForm)
    (f : UploadedFile) (now : Nat) (cfg : MailConfig) (fetchOut : FetchOutcome) (s : St)
    (hnojob : s.jobs.find? (fun j => toString j.id == idParam) = none)
    (haccept : fileFilterAccepts f = true)
    (hmax : ¬ f.size > MAX_RESUME_BYTES) :
    (applyHandler idParam form (some f) now cfg fetchOut s).1 = .notFound "Job not found" ∧
    (applyHandler idParam form (some f) now cfg fetchOut s).2.apps = s.apps ∧
    (applyHandler idParam form (some f) now cfg fetchOut s).2.files
        = uploadPath now f.originalname :: s.files := by
  refine ⟨?_, ?_, ?_⟩ <;> simp [applyHandler, runMulter, haccept, hmax, hnojob]

/-- Witness for C10: applying to the absent job id 999 with a valid file
keeps the saved upload on disk. -/
theorem apply_unknown_job_404_keeps_file_witness :
    (applyHandler "999" formW (some fileW) 42 cfgUnsetW .ok stW).1
        = .notFound "Job not found" ∧
    (applyHandler "999" formW (some fileW) 42 cfgUnsetW .ok stW).2.apps = stW.apps ∧
    (applyHandler "999" formW (some fileW) 42 cfgUnsetW .ok stW).2.files
        = uploadPath 42 fileW.originalname :: stW.files :=
  apply_unknown_job_404_keeps_file "999" formW fileW 42 cfgUnsetW .ok stW
    (by decide) (by decide) (by decide)

/-- C3: for a submission to an existing job where a validation failure
fires after the resume was saved (a missing required field, invalid email,
invalid phone, or an undersized resume — a bad file type is never saved),
the handler deletes the saved file, re-renders the apply form with an
error and the submitted field values, and appends no application. -/
theorem apply_validation_failure_cleanup (idParam : String) (form : ApplyForm)
    (f : UploadedFile) (now : Nat) (cfg : MailConfig) (fetchOut : FetchOutcome)
    (s : St) (job : Job)
    (hjob : s.jobs.find? (fun j => toString j.id == idParam) = some job)
    (haccept : fileFilterAccepts f = true)
    (hmax : ¬ f.size > MAX_RESUME_BYTES)
    (hfresh : uploadPath now f.originalname ∉ s.files)
    (hfail : form.name = "" ∨ form.email = "" ∨ form.phone = "" ∨ form.cover = "" ∨
             emailOk form.email = false ∨ phoneOk form.phone = false ∨
             f.size < MIN_RESUME_BYTES) :
    (∃ e, (applyHandler idParam form (some f) now cfg fetchOut s).1 = .renderApply e form) ∧
    (applyHandler idParam form (some f) now cfg fetchOut s).2.files = s.files ∧
    (applyHandler idParam form (some f) now cfg fetchOut s).2.apps = s.apps :=
  apply_saved_failure_clean idParam form f now cfg fetchOut s job hjob haccept hmax hfresh hfail

/-- Witness for C3: a submission to job 1 with an empty cover letter and a
valid saved file is re-rendered with the fields preserved, the file gone
and the store untouched. -/
theorem apply_validation_failure_cleanup_witness :
    (∃ e, (applyHandler "1" ⟨"Nia", "n@d.co", "1234567", ""⟩ (some fileW) 42 cfgUnsetW .ok
        stW).1 = .renderApply e ⟨"Nia", "n@d.co", "1234567", ""⟩) ∧
    (applyHandler "1" ⟨"Nia", "n@d.co", "1234567", ""⟩ (some fileW) 42 cfgUnsetW .ok
        stW).2.files = stW.files ∧
    (applyHandler "1" ⟨"Nia", "n@d.co", "1234567", ""⟩ (some fileW) 42 cfgUnsetW .ok
        stW).2.apps = stW.apps :=
  apply_validation_failure_cleanup "1" ⟨"Nia", "n@d.co", "1234567", ""⟩ fileW 42 cfgUnsetW
    .ok stW jobW (by decide) (by decide) (by decide) (by decide)
    (Or.inr (Or.inr (Or.inr (Or.inl rfl))))

/-- C2 as stated is false: a submission with an undersized (100-byte)
resume aimed at a job id that does not exist is answered 404 before any
cleanup branch runs, so the saved upload remains on disk. -/
theorem undersized_resume_unknown_job_leaves_file :
    fileSmallW.size < MIN_RESUME_BYTES ∧
    (applyHandler "999" formW (some fileSmallW) 42 cfgUnsetW .ok stW).2.apps = stW.apps ∧
    uploadPath 42 fileSmallW.originalname
        ∈ (applyHandler "999" formW (some fileSmallW) 42 cfgUnsetW .ok stW).2.files := by
  decide

/-- C2 amended: for every submission to an *existing* job whose resume is
under 50 KB or over 5 MB, no application record is appended and no
uploaded file remains on disk (the disk is exactly as before). -/
theorem undersized_oversized_rejected_for_existing_job (idParam : String) (form : ApplyForm)
    (f : UploadedFile) (now : Nat) (cfg : MailConfig) (fetchOut : FetchOutcome)
    (s : St) (job : Job)
    (hjob : s.jobs.find? (fun j => toString j.id == idParam) = some job)
    (hfresh : uploadPath now f.originalname ∉ s.files)
    (hsize : f.size < MIN_RESUME_BYTES ∨ f.size > MAX_RESUME_BYTES) :
    (applyHandler idParam form (some f) now cfg fetchOut s).2.apps = s.apps ∧
    (applyHandler idParam form (some f) now cfg fetchOut s).2.files = s.files := by
  cases haccept : fileFilterAccepts f with
  | false =>
    constructor <;> simp [applyHandler, runMulter, haccept, hjob, deleteReqFile]
  | true =>
    by_cases hmax : f.size > MAX_RESUME_BYTES
    · constructor <;> simp [applyHandler, runMulter, haccept, hmax, hjob, deleteReqFile]
    · have hmin : f.size < MIN_RESUME_BYTES := by
        rcases hsize with h | h
        · exact h
        · exact absurd h hmax
      have h2 := apply_saved_failure_clean idParam form f now cfg fetchOut s job hjob haccept
        hmax hfresh (Or.inr (Or.inr (Or.inr (Or.inr (Or.inr (Or.inr hmin))))))
      exact ⟨h2.2.2, h2.2.1⟩

/-- Witness for the amended C2: an undersized resume submitted to the
existing job 1 leaves both the store and the disk exactly as before. -/
theorem undersized_oversized_rejected_for_existing_job_witness :
    (applyHandler "1" formW (some fileSmallW) 42 cfgUnsetW .ok stW).2.apps = stW.apps ∧
    (applyHandler "1" formW (some fileSmallW) 42 cfgUnsetW .ok stW).2.files = stW.files :=
  undersized_oversized_rejected_for_existing_job "1" formW fileSmallW 42 cfgUnsetW .ok stW
    jobW (by decide) (by decide) (Or.inl (by decide))

/-- C5: the dispatcher is configured exactly when all four EmailJS
identifiers are present; with any of them missing, a fully valid
application and an authenticated rejection each dispatch no network call,
write the intended message to the console, append exactly one mail-log
line with `sent = false`, and the user-facing operation still completes
(success page, admin redirect). -/
theorem unconfigured_mailer_skips_sends (cfg : MailConfig) (fetchOut : FetchOutcome)
    (idParam : String) (form : ApplyForm) (f : UploadedFile) (now : Nat) (s : St) (job : Job)
    (idParamR : String) (sR : St) (i : Nat) (appR : Application)
    (hc : mailerConfigured cfg = false)
    (hjob : s.jobs.find? (fun j => toString j.id == idParam) = some job)
    (haccept : fileFilterAccepts f = true)
    (hmax : ¬ f.size > MAX_RESUME_BYTES)
    (hmin : ¬ f.size < MIN_RESUME_BYTES)
    (hfields : ¬ (form.name = "" ∨ form.email = "" ∨ form.phone = "" ∨ form.cover = ""))
    (hemail : emailOk form.email = true)
    (hphone : phoneOk form.phone = true)
    (hfind : sR.apps.findIdx? (fun a => toString a.id == idParamR) = some i)
    (hget : sR.apps[i]? = some appR) :
    (∀ c : MailConfig, mailerConfigured c = true ↔
      (c.serviceId ≠ "" ∧ c.userId ≠ "" ∧ c.templateConfirm ≠ "" ∧ c.templateReject ≠ "")) ∧
    ((applyHandler idParam form (some f) now cfg fetchOut s).2.sends = s.sends ∧
     (∃ a, (applyHandler idParam form (some f) now cfg fetchOut s).1 = .renderSuccess a) ∧
     (∃ e : MailLogEntry, e.sent = false ∧
       (applyHandler idParam form (some f) now cfg fetchOut s).2.mailLog = s.mailLog ++ [e]) ∧
     (∃ msg, (applyHandler idParam form (some f) now cfg fetchOut s).2.console
         = s.console ++ [msg])) ∧
    ((rejectHandler true idParamR cfg fetchOut sR).2.sends = sR.sends ∧
     (rejectHandler true idParamR cfg fetchOut sR).1 = .redirect "/admin" ∧
     (∃ e : MailLogEntry, e.sent = false ∧
       (rejectHandler true idParamR cfg fetchOut sR).2.mailLog = sR.mailLog ++ [e]) ∧
     (∃ msg, (rejectHandler true idParamR cfg fetchOut sR).2.console = sR.console ++ [msg])) := by
  refine ⟨?_, ?_, ?_⟩
  · intro c
    simp [mailerConfigured, Bool.and_eq_true, decide_eq_true_eq, and_assoc]
  · rw [applyHandler_success_shape idParam form f now cfg fetchOut s job hjob haccept hmax
      hmin hfields hemail hphone,
      confirmMailStep_unconfigured _ _ _ _ _ _ hc]
    refine ⟨rfl, ⟨_, rfl⟩, ⟨_, rfl, rfl⟩, ⟨_, rfl⟩⟩
  · simp only [rejectHandler, if_true, hfind, hget]
    rw [rejectMailStep_unconfigured _ _ _ _ _ _ hc]
    cases hres : appR.resume <;> simp

/-- Witness for C5: with the service id missing, a valid application to
job 1 and the rejection of application 10 both skip the network and log
one not-sent line. -/
theorem unconfigured_mailer_skips_sends_witness :
    (∀ c : MailConfig, mailerConfigured c = true ↔
      (c.serviceId ≠ "" ∧ c.userId ≠ "" ∧ c.templateConfirm ≠ "" ∧ c.templateReject ≠ "")) ∧
    ((applyHandler "1" formW (some fileW) 42 cfgUnsetW .ok stW).2.sends = stW.sends ∧
     (∃ a, (applyHandler "1" formW (some fileW) 42 cfgUnsetW .ok stW).1 = .renderSuccess a) ∧
     (∃ e : MailLogEntry, e.sent = false ∧
       (applyHandler "1" formW (some fileW) 42 cfgUnsetW .ok stW).2.mailLog
         = stW.mailLog ++ [e]) ∧
     (∃ msg, (applyHandler "1" formW (some fileW) 42 cfgUnsetW .ok stW).2.console
         = stW.console ++ [msg])) ∧
    ((rejectHandler true "10" cfgUnsetW .ok stW).2.sends = stW.sends ∧
     (rejectHandler true "10" cfgUnsetW .ok stW).1 = .redirect "/admin" ∧
     (∃ e : MailLogEntry, e.sent = false ∧
       (rejectHandler true "10" cfgUnsetW .ok stW).2.mailLog = stW.mailLog ++ [e]) ∧
     (∃ msg, (rejectHandler true "10" cfgUnsetW .ok stW).2.console = stW.console ++ [msg])) :=
  unconfigured_mailer_skips_sends cfgUnsetW .ok "1" formW fileW 42 stW jobW "10" stW 0 appW
    (by decide) (by decide) (by decide) (by decide) (by decide) (by decide) (by decide)
    (by decide) (by decide) (by decide)

end AnjaniDeepa
